import Mathlib

/-!
Verification of the interactive geometry core of the sustainX floorplan
editor (frontend/src/components/FloorplanEditor/FloorplanEditor.jsx).

The editor's numeric values are JavaScript numbers; we model the program
at real-number semantics: coordinates are `Real`, `Math.sqrt` is
`Real.sqrt`, `Math.atan2` is modelled by cases over `Real.arctan`, and
`Number.prototype.toFixed(2)` followed by `parseFloat` is rounding to two
decimals.  Wall/window/door ids are strings compared by `===` in the
source; they are modelled as natural numbers compared by `=`.  Comparisons
of reals are made decidable classically, so every branch of the source is
mirrored by a term-level branch here.
-/

open Real Classical

noncomputable section

/-- A 2-D point in drawing units (feet). -/
structure Pt where
  x : ℝ
  y : ℝ

/-- `Wall` record: endpoints `x1,y1,x2,y2` in feet plus thermal data
(see the wall literal created by `addWall`). -/
structure Wall where
  id : ℕ
  x1 : ℝ
  y1 : ℝ
  x2 : ℝ
  y2 : ℝ
  height : ℝ := 9
  thickness : ℝ := 9 / 12
  material : String := "brick"

/-- `Window` record (see the literal created by `addWindow`);
`wall_id` is a weak reference to the owning wall. -/
structure Window where
  id : ℕ
  wall_id : ℕ
  position : ℝ := 0.5
  width : ℝ := 4
  height : ℝ := 4.5
  u_value : ℝ := 2.8
  sealing : String := "average"
  material : String := "double_glazed"

/-- `Door` record (see the literal created by `addDoor`). -/
structure Door where
  id : ℕ
  wall_id : ℕ
  position : ℝ := 0.3
  width : ℝ := 3
  height : ℝ := 7
  u_value : ℝ := 2.0
  sealing : String := "average"
  material : String := "wood"

/-- Floor/ceiling record: `{ area, u_value, type }` as initialised in the
editor page state.  `area` is in square meters. -/
structure Surface where
  area : ℝ
  u_value : ℝ
  type : String := "ground"

/-- Ventilation record. -/
structure Ventilation where
  air_changes_per_hour : ℝ := 0.5
  exhaust_rate : ℝ := 0

/-- The `Floorplan` aggregate passed to `onChange`. -/
structure Floorplan where
  walls : List Wall
  windows : List Window
  doors : List Door
  floor : Surface
  ceiling : Surface
  ventilation : Ventilation

/-- `const FEET_TO_METERS = 0.3048`. -/
def FEET_TO_METERS : ℝ := 0.3048

/-- `const SNAP_DISTANCE = 15` (pixels). -/
def SNAP_DISTANCE : ℝ := 15

/-- `const SCALE = 15` (pixels per foot). -/
def SCALE : ℝ := 15

/-- `const ANGLE_SNAP_THRESHOLD = 10` (degrees). -/
def ANGLE_SNAP_THRESHOLD : ℝ := 10

/-- Model of JavaScript `Math.atan2(y, x)` at real-number semantics
(signed zeros are identified): the angle of the vector `(x, y)` in
`(-pi, pi]`. -/
def atan2 (y x : ℝ) : ℝ :=
  if 0 < x then Real.arctan (y / x)
  else if x < 0 then
    if 0 ≤ y then Real.arctan (y / x) + π else Real.arctan (y / x) - π
  else
    if 0 < y then π / 2 else if y < 0 then -(π / 2) else 0

/-- `getWallLength`: Euclidean length of a wall in feet. -/
def getWallLength (w : Wall) : ℝ :=
  Real.sqrt ((w.x2 - w.x1) * (w.x2 - w.x1) + (w.y2 - w.y1) * (w.y2 - w.y1))

/-- An endpoint record `{ x, y, wallId }` as pushed by `getSnapPoints`
and by the endpoint list of `isRoomClosed`. -/
structure EPoint where
  x : ℝ
  y : ℝ
  wallId : ℕ

/-- `getSnapPoints(excludeWallId)`: both endpoints of every wall other
than the excluded one, in wall order. -/
def getSnapPoints (walls : List Wall) (excludeWallId : ℕ) : List EPoint :=
  (walls.filter fun w => w.id ≠ excludeWallId).flatMap fun w =>
    [⟨w.x1, w.y1, w.id⟩, ⟨w.x2, w.y2, w.id⟩]

/-- The scanning loop of `findSnapPoint`: fold over the snap points
keeping the nearest point seen so far (`nearest`) and its distance
(`minDist`, initially `SNAP_DISTANCE / SCALE`); strict improvement only. -/
def findSnapLoop (x y : ℝ) : List EPoint → Option EPoint → ℝ → Option EPoint
  | [], nearest, _ => nearest
  | point :: rest, nearest, minDist =>
    let dist := Real.sqrt ((x - point.x) ^ 2 + (y - point.y) ^ 2)
    if dist < minDist then findSnapLoop x y rest (some point) dist
    else findSnapLoop x y rest nearest minDist

/-- `findSnapPoint(x, y, excludeWallId)`: nearest other-wall endpoint
within `SNAP_DISTANCE / SCALE` drawing units, if any. -/
def findSnapPoint (walls : List Wall) (x y : ℝ) (excludeWallId : ℕ) : Option EPoint :=
  findSnapLoop x y (getSnapPoints walls excludeWallId) none (SNAP_DISTANCE / SCALE)

/-- `const snapAngles = [0, 90, 180, -90, -180]`. -/
def snapAngles : List ℝ := [0, 90, 180, -90, -180]

/-- The `for (const snapAngle of snapAngles) ... break` loop shared by
`snapToRightAngle` and `handleMouseMove`: the first candidate within
`ANGLE_SNAP_THRESHOLD` degrees of `angle`, if any. -/
def firstSnapAngle (angle : ℝ) : List ℝ → Option ℝ
  | [] => none
  | c :: rest =>
    if |angle - c| < ANGLE_SNAP_THRESHOLD then some c else firstSnapAngle angle rest

/-- `snapToRightAngle(x, y, anchorX, anchorY)` (lines 153-180): return
`(x, y)` unchanged when the segment is shorter than 0.5 ft, otherwise
recompute the point at the snapped (or original) angle with the same
length. -/
def snapToRightAngle (x y anchorX anchorY : ℝ) : Pt :=
  let dx := x - anchorX
  let dy := y - anchorY
  let length := Real.sqrt (dx * dx + dy * dy)
  if length < 0.5 then ⟨x, y⟩
  else
    let angle := atan2 dy dx * (180 / π)
    let snappedAngle := (firstSnapAngle angle snapAngles).getD angle
    let radians := snappedAngle * (π / 180)
    ⟨anchorX + length * Real.cos radians, anchorY + length * Real.sin radians⟩

/-- The angle-correction stage of `handleMouseMove` (lines 468-492):
if the drag angle is within `ANGLE_SNAP_THRESHOLD` of a candidate and the
length is at least 0.5 ft, move the point onto the candidate ray at the
same length; otherwise leave it unchanged. -/
def angleCorrect (p a : Pt) : Pt :=
  let dx := p.x - a.x
  let dy := p.y - a.y
  let angle := atan2 dy dx * (180 / π)
  let length := Real.sqrt (dx * dx + dy * dy)
  match firstSnapAngle angle snapAngles with
  | some snappedAngle =>
    if 0.5 ≤ length then
      let radians := snappedAngle * (π / 180)
      ⟨a.x + length * Real.cos radians, a.y + length * Real.sin radians⟩
    else p
  | none => p

/-- The full drag pipeline of `handleMouseMove` (lines 465-499): angle
correction followed by the endpoint snap, which has final priority. -/
def dragSnapPoint (walls : List Wall) (dragWallId : ℕ) (a p : Pt) : Pt :=
  let q := angleCorrect p a
  match findSnapPoint walls q.x q.y dragWallId with
  | some snapPoint => ⟨snapPoint.x, snapPoint.y⟩
  | none => q

/-- The endpoint list built at the top of `isRoomClosed` (both endpoints
of every wall, in wall order; the dead `type` tag is omitted). -/
def wallEndpoints (walls : List Wall) : List EPoint :=
  walls.flatMap fun w => [⟨w.x1, w.y1, w.id⟩, ⟨w.x2, w.y2, w.id⟩]

/-- The `endpoints.some(...)` test of `isRoomClosed`: some endpoint of a
different wall lies within the 0.5 ft per-coordinate tolerance. -/
def isConnectedEndpoint (eps : List EPoint) (ep : EPoint) : Prop :=
  ∃ other ∈ eps, other.wallId ≠ ep.wallId ∧ |other.x - ep.x| < 0.5 ∧ |other.y - ep.y| < 0.5

/-- The `unconnected` counter of `isRoomClosed`. -/
def unconnectedCount (walls : List Wall) : ℕ :=
  ((wallEndpoints walls).filter fun ep =>
    ¬ isConnectedEndpoint (wallEndpoints walls) ep).length

/-- `isRoomClosed()` (lines 183-213): false for fewer than 3 walls,
otherwise true iff no endpoint is unconnected. -/
def isRoomClosed (walls : List Wall) : Bool :=
  if walls.length < 3 then false
  else unconnectedCount walls == 0

/-- The `walls.find(...)` step of the tracing loop in
`calculateFloorArea`: first unused wall with an endpoint within the
0.5 ft per-coordinate tolerance of the current trace point. -/
def traceNext (walls : List Wall) (used : List ℕ) (pt : Pt) : Option Wall :=
  walls.find? fun w =>
    w.id ∉ used ∧
      ((|w.x1 - pt.x| < 0.5 ∧ |w.y1 - pt.y| < 0.5) ∨
        (|w.x2 - pt.x| < 0.5 ∧ |w.y2 - pt.y| < 0.5))

/-- The `while (usedWalls.size < walls.length)` loop of
`calculateFloorArea`.  `used` plays the role of the `usedWalls` id set
(the guard in `traceNext` only ever inserts fresh ids, so list length
agrees with set size).  The fuel argument only bounds recursion; it is
set to `walls.length`, which the loop can never exhaust since every
iteration either stops or grows `used` by one starting from one element. -/
def traceLoop (walls : List Wall) : ℕ → List ℕ → Pt → List Pt → List Pt
  | 0, _, _, vertices => vertices
  | fuel + 1, used, nextPoint, vertices =>
    if used.length < walls.length then
      let vertices := vertices ++ [nextPoint]
      match traceNext walls used nextPoint with
      | none => vertices
      | some w =>
        let newNext : Pt :=
          if |w.x1 - nextPoint.x| < 0.5 ∧ |w.y1 - nextPoint.y| < 0.5 then ⟨w.x2, w.y2⟩
          else ⟨w.x1, w.y1⟩
        traceLoop walls fuel (w.id :: used) newNext vertices
    else vertices

/-- The ordered vertex ring traced by `calculateFloorArea`: start at the
first wall's first endpoint, then follow connected unused walls. -/
def traceVertices (walls : List Wall) : List Pt :=
  match walls with
  | [] => []
  | w0 :: _ => traceLoop walls walls.length [w0.id] ⟨w0.x2, w0.y2⟩ [⟨w0.x1, w0.y1⟩]

/-- The shoelace formula over the vertex ring (indices modulo length). -/
def shoelaceArea (vertices : List Pt) : ℝ :=
  |((List.range vertices.length).map fun i =>
      (vertices.getD i ⟨0, 0⟩).x * (vertices.getD ((i + 1) % vertices.length) ⟨0, 0⟩).y -
        (vertices.getD ((i + 1) % vertices.length) ⟨0, 0⟩).x *
          (vertices.getD i ⟨0, 0⟩).y).sum| / 2

/-- `calculateFloorArea()` (lines 216-276): 0 for fewer than 3 walls, an
unclosed room, or a trace that collects fewer than 3 vertices; otherwise
the shoelace area of the traced ring, in square feet. -/
def calculateFloorArea (walls : List Wall) : ℝ :=
  if walls.length < 3 then 0
  else if isRoomClosed walls then
    let vertices := traceVertices walls
    if vertices.length < 3 then 0 else shoelaceArea vertices
  else 0

/-- `parseFloat(v.toFixed(2))`: rounding to two decimal places (JS
`toFixed` rounds half away from zero on the nonnegative values used
here, matching `round`). -/
def toFixed2 (v : ℝ) : ℝ := (round (v * 100) : ℤ) / 100

/-- `syncFloorCeilingArea()` (lines 279-291).  The result is the
floorplan passed to `onChange`; `none` models the branch in which
`onChange` is not invoked (area not positive). -/
def syncFloorCeilingArea (fp : Floorplan) : Option Floorplan :=
  let area := calculateFloorArea fp.walls
  if 0 < area then
    let areaM2 := toFixed2 (area * FEET_TO_METERS * FEET_TO_METERS)
    some { fp with
            floor := { fp.floor with area := areaM2 },
            ceiling := { fp.ceiling with area := areaM2 } }
  else none

/-- `updateWall(wallId, updates)` (lines 388-395); `updates` models the
object-spread patch `{ ...w, ...updates }`. -/
def updateWall (fp : Floorplan) (wallId : ℕ) (updates : Wall → Wall) : Floorplan :=
  { fp with walls := fp.walls.map fun w => if w.id = wallId then updates w else w }

/-- `updateWallLength(wallId, newLength)` (lines 397-412). -/
def updateWallLength (fp : Floorplan) (wallId : ℕ) (newLength : ℝ) : Floorplan :=
  match fp.walls.find? fun w => w.id = wallId with
  | none => fp
  | some wall =>
    if getWallLength wall = 0 then fp
    else
      let k := newLength / getWallLength wall
      let dx := wall.x2 - wall.x1
      let dy := wall.y2 - wall.y1
      updateWall fp wallId fun w => { w with x2 := wall.x1 + dx * k, y2 := wall.y1 + dy * k }

/-- `deleteWall(wallId)` (lines 414-422): remove the wall and cascade to
windows and doors referencing it. -/
def deleteWall (fp : Floorplan) (wallId : ℕ) : Floorplan :=
  { fp with
    walls := fp.walls.filter fun w => w.id ≠ wallId,
    windows := fp.windows.filter fun w => w.wall_id ≠ wallId,
    doors := fp.doors.filter fun d => d.wall_id ≠ wallId }

/-! ## Test fixtures -/

/-- A right triangle with legs of 1 ft: three exactly matching walls. -/
def triWalls : List Wall :=
  [⟨1, 0, 0, 1, 0, 9, 9 / 12, "brick"⟩, ⟨2, 1, 0, 0, 1, 9, 9 / 12, "brick"⟩,
    ⟨3, 0, 1, 0, 0, 9, 9 / 12, "brick"⟩]

/-- A floorplan whose walls are the unit right triangle. -/
def triFp : Floorplan :=
  ⟨triWalls, [], [], ⟨20, 0.5, "ground"⟩, ⟨20, 0.3, "roof"⟩, ⟨0.5, 0⟩⟩

/-- Four walls forming a 10 by 10 ft axis-aligned square with matching
endpoints, lower-left corner at `(ox, oy)`, listed in cyclic order. -/
def squareWalls (ox oy : ℝ) : List Wall :=
  [⟨1, ox, oy, ox + 10, oy, 9, 9 / 12, "brick"⟩,
    ⟨2, ox + 10, oy, ox + 10, oy + 10, 9, 9 / 12, "brick"⟩,
    ⟨3, ox + 10, oy + 10, ox, oy + 10, 9, 9 / 12, "brick"⟩,
    ⟨4, ox, oy + 10, ox, oy, 9, 9 / 12, "brick"⟩]

/-- A floorplan whose walls form the 10 by 10 ft square at the origin. -/
def sqFp : Floorplan :=
  ⟨squareWalls 0 0, [], [], ⟨20, 0.5, "ground"⟩, ⟨20, 0.3, "roof"⟩, ⟨0.5, 0⟩⟩

/-- Walls for the snap-idempotence counterexample: wall 1 is being
dragged from anchor (0,0); wall 2 contributes the endpoint (1, 0.15),
which lies at an angle of about 8.5 degrees from the anchor; wall 3
contributes the endpoint (1.01, 0) close to where (1, 0.15) lands after
right-angle correction. -/
def cxWalls : List Wall :=
  [⟨1, 0, 0, 0.2, 0.1, 9, 9 / 12, "brick"⟩,
    ⟨2, 1, 0.15, 50, 50, 9, 9 / 12, "brick"⟩,
    ⟨3, 1.01, 0, 60, -60, 9, 9 / 12, "brick"⟩]

/-! ## Shared evaluation lemmas -/

/-- The traced area of the unit right triangle is 0.5 square feet. -/
theorem triWalls_area : calculateFloorArea triWalls = 1 / 2 := by
  norm_num [calculateFloorArea, isRoomClosed, unconnectedCount, wallEndpoints,
    isConnectedEndpoint, triWalls, List.filter, List.flatMap, abs_sub_lt_iff,
    traceVertices, traceLoop, traceNext, List.find?, shoelaceArea, List.range_succ,
    List.getD]

/-- The traced area of any 10 by 10 square is 100 square feet. -/
theorem squareWalls_area (ox oy : ℝ) : calculateFloorArea (squareWalls ox oy) = 100 := by
  have h1 : isRoomClosed (squareWalls ox oy) = true := by
    norm_num [isRoomClosed, unconnectedCount, wallEndpoints, isConnectedEndpoint,
      squareWalls, List.filter, List.flatMap, abs_sub_lt_iff]
  have h2 : traceVertices (squareWalls ox oy) =
      [⟨ox, oy⟩, ⟨ox + 10, oy⟩, ⟨ox + 10, oy + 10⟩, ⟨ox, oy + 10⟩] := by
    norm_num [traceVertices, traceLoop, traceNext, squareWalls, List.find?, abs_sub_lt_iff]
  rw [calculateFloorArea, if_neg (by norm_num [squareWalls]), if_pos h1, h2]
  norm_num [shoelaceArea, List.range_succ, List.getD]
  rw [show ox * oy - (ox + 10) * oy +
      ((ox + 10) * (oy + 10) - (ox + 10) * oy +
        ((ox + 10) * (oy + 10) - ox * (oy + 10) + (ox * oy - ox * (oy + 10)))) =
      (200 : ℝ) by ring]
  norm_num

/-! ## Helper lemmas -/

/-- Square-root evaluation at perfect squares. -/
theorem sqrt_eval {a b : ℝ} (hb : 0 ≤ b) (h : a = b ^ 2) : Real.sqrt a = b := by
  rw [h, Real.sqrt_sq hb]

/-- Once the scanning loop of `findSnapPoint` holds a candidate, it
returns one. -/
theorem findSnapLoop_isSome (x y : ℝ) (pts : List EPoint) :
    ∀ (n : EPoint) (d : ℝ), (findSnapLoop x y pts (some n) d).isSome = true := by
  induction pts with
  | nil => intro n d; rfl
  | cons p rest ih =>
    intro n d
    unfold findSnapLoop
    by_cases hlt : Real.sqrt ((x - p.x) ^ 2 + (y - p.y) ^ 2) < d
    · simpa [hlt] using ih p _
    · simpa [hlt] using ih n d

/-- If some snap point is strictly within the current scan distance, the
scanning loop returns a point. -/
theorem findSnapLoop_exists (x y : ℝ) (pts : List EPoint) :
    ∀ d : ℝ, (∃ q ∈ pts, Real.sqrt ((x - q.x) ^ 2 + (y - q.y) ^ 2) < d) →
      ∃ r, findSnapLoop x y pts none d = some r := by
  induction pts with
  | nil => intro d h; simp at h
  | cons p rest ih =>
    intro d h
    unfold findSnapLoop
    by_cases hlt : Real.sqrt ((x - p.x) ^ 2 + (y - p.y) ^ 2) < d
    · simp only [if_pos hlt]
      obtain ⟨r, hr⟩ := Option.isSome_iff_exists.mp (findSnapLoop_isSome x y rest p _)
      exact ⟨r, hr⟩
    · simp only [if_neg hlt]
      obtain ⟨q, hq, hqd⟩ := h
      rcases List.mem_cons.mp hq with rfl | hq'
      · exact absurd hqd hlt
      · exact ih d ⟨q, hq', hqd⟩

/-- Soundness of the scanning loop: a returned point either comes from
the scanned list and lies strictly within the initial scan distance, or
is the incoming candidate. -/
theorem findSnapLoop_sound (x y : ℝ) (pts : List EPoint) :
    ∀ (acc : Option EPoint) (d : ℝ) (r : EPoint),
      findSnapLoop x y pts acc d = some r →
        (r ∈ pts ∧ Real.sqrt ((x - r.x) ^ 2 + (y - r.y) ^ 2) < d) ∨ acc = some r := by
  induction pts with
  | nil => intro acc d r h; exact Or.inr h
  | cons p rest ih =>
    intro acc d r h
    unfold findSnapLoop at h
    by_cases hlt : Real.sqrt ((x - p.x) ^ 2 + (y - p.y) ^ 2) < d
    · rw [if_pos hlt] at h
      rcases ih (some p) _ r h with ⟨hmem, hd⟩ | heq
      · exact Or.inl ⟨List.mem_cons_of_mem p hmem, lt_trans hd hlt⟩
      · cases heq
        exact Or.inl ⟨List.mem_cons_self p rest, hlt⟩
    · rw [if_neg hlt] at h
      rcases ih acc d r h with ⟨hmem, hd⟩ | heq
      · exact Or.inl ⟨List.mem_cons_of_mem p hmem, hd⟩
      · exact Or.inr heq

/-- If no snap point is strictly within the current scan distance, the
scanning loop returns nothing. -/
theorem findSnapLoop_none (x y : ℝ) (pts : List EPoint) :
    ∀ d : ℝ, (∀ q ∈ pts, ¬ Real.sqrt ((x - q.x) ^ 2 + (y - q.y) ^ 2) < d) →
      findSnapLoop x y pts none d = none := by
  induction pts with
  | nil => intro d _; rfl
  | cons p rest ih =>
    intro d h
    unfold findSnapLoop
    rw [if_neg (h p (List.mem_cons_self p rest))]
    exact ih d fun q hq => h q (List.mem_cons_of_mem p hq)

/-- The candidate angles are pairwise at least 90 degrees apart (and
180 and -180 are 360 apart), so an angle within the 10 degree threshold
of a candidate matches that candidate first. -/
theorem firstSnapAngle_eq (angle c : ℝ) (hc : c ∈ snapAngles)
    (h : |angle - c| < ANGLE_SNAP_THRESHOLD) :
    firstSnapAngle angle snapAngles = some c := by
  have hT : ANGLE_SNAP_THRESHOLD = (10 : ℝ) := rfl
  rw [hT, abs_sub_lt_iff] at h
  fin_cases hc
  · simp only [snapAngles, firstSnapAngle]
    rw [if_pos (by rw [hT, abs_sub_lt_iff]; constructor <;> linarith)]
  · simp only [snapAngles, firstSnapAngle]
    rw [if_neg (by rw [hT, abs_sub_lt_iff]; rintro ⟨h1, h2⟩; linarith),
      if_pos (by rw [hT, abs_sub_lt_iff]; constructor <;> linarith)]
  · simp only [snapAngles, firstSnapAngle]
    rw [if_neg (by rw [hT, abs_sub_lt_iff]; rintro ⟨h1, h2⟩; linarith),
      if_neg (by rw [hT, abs_sub_lt_iff]; rintro ⟨h1, h2⟩; linarith),
      if_pos (by rw [hT, abs_sub_lt_iff]; constructor <;> linarith)]
  · simp only [snapAngles, firstSnapAngle]
    rw [if_neg (by rw [hT, abs_sub_lt_iff]; rintro ⟨h1, h2⟩; linarith),
      if_neg (by rw [hT, abs_sub_lt_iff]; rintro ⟨h1, h2⟩; linarith),
      if_neg (by rw [hT, abs_sub_lt_iff]; rintro ⟨h1, h2⟩; linarith),
      if_pos (by rw [hT, abs_sub_lt_iff]; constructor <;> linarith)]
  · simp only [snapAngles, firstSnapAngle]
    rw [if_neg (by rw [hT, abs_sub_lt_iff]; rintro ⟨h1, h2⟩; linarith),
      if_neg (by rw [hT, abs_sub_lt_iff]; rintro ⟨h1, h2⟩; linarith),
      if_neg (by rw [hT, abs_sub_lt_iff]; rintro ⟨h1, h2⟩; linarith),
      if_neg (by rw [hT, abs_sub_lt_iff]; rintro ⟨h1, h2⟩; linarith),
      if_pos (by rw [hT, abs_sub_lt_iff]; constructor <;> linarith)]

/-- A point at distance `L` straight right of the anchor is a fixed
point of the angle-correction stage. -/
theorem angleCorrect_right (a : Pt) (L : ℝ) (hL : 0.5 ≤ L) :
    angleCorrect ⟨a.x + L, a.y⟩ a = ⟨a.x + L, a.y⟩ := by
  have hL0 : (0 : ℝ) < L := lt_of_lt_of_le (by norm_num) hL
  have hatan : atan2 (a.y - a.y) (a.x + L - a.x) = 0 := by
    rw [sub_self, add_sub_cancel_left]
    unfold atan2
    rw [if_pos hL0]
    simp
  have hsqrt : Real.sqrt ((a.x + L - a.x) * (a.x + L - a.x) + (a.y - a.y) * (a.y - a.y)) = L :=
    sqrt_eval hL0.le (by ring)
  have hfs : firstSnapAngle (0 * (180 / π)) snapAngles = some 0 :=
    firstSnapAngle_eq _ 0 (by simp [snapAngles])
      (by rw [show ANGLE_SNAP_THRESHOLD = (10 : ℝ) from rfl]; norm_num)
  simp only [angleCorrect, hatan, hsqrt, hfs, if_pos hL]
  norm_num

/-- A point straight above the anchor is a fixed point of the
angle-correction stage (screen coordinates; the source angle 90). -/
theorem angleCorrect_up (a : Pt) (L : ℝ) (hL : 0.5 ≤ L) :
    angleCorrect ⟨a.x, a.y + L⟩ a = ⟨a.x, a.y + L⟩ := by
  have hL0 : (0 : ℝ) < L := lt_of_lt_of_le (by norm_num) hL
  have hatan : atan2 (a.y + L - a.y) (a.x - a.x) = π / 2 := by
    rw [sub_self, add_sub_cancel_left]
    unfold atan2
    rw [if_neg (lt_irrefl 0), if_neg (lt_irrefl 0), if_pos hL0]
  have hdeg : π / 2 * (180 / π) = 90 := by
    field_simp
    ring
  have hsqrt : Real.sqrt ((a.x - a.x) * (a.x - a.x) + (a.y + L - a.y) * (a.y + L - a.y)) = L :=
    sqrt_eval hL0.le (by ring)
  have hfs : firstSnapAngle (90 : ℝ) snapAngles = some 90 :=
    firstSnapAngle_eq _ 90 (by simp [snapAngles])
      (by rw [show ANGLE_SNAP_THRESHOLD = (10 : ℝ) from rfl]; norm_num)
  have hrad : (90 : ℝ) * (π / 180) = π / 2 := by ring
  simp only [angleCorrect, hatan, hdeg, hsqrt, hfs, if_pos hL, hrad,
    Real.cos_pi_div_two, Real.sin_pi_div_two]
  norm_num

/-- A point straight left of the anchor is a fixed point of the
angle-correction stage (angle 180). -/
theorem angleCorrect_left (a : Pt) (L : ℝ) (hL : 0.5 ≤ L) :
    angleCorrect ⟨a.x - L, a.y⟩ a = ⟨a.x - L, a.y⟩ := by
  have hL0 : (0 : ℝ) < L := lt_of_lt_of_le (by norm_num) hL
  have hatan : atan2 (a.y - a.y) (a.x - L - a.x) = π := by
    rw [sub_self, show a.x - L - a.x = -L by ring]
    unfold atan2
    rw [if_neg (not_lt.mpr (neg_nonpos.mpr hL0.le)), if_pos (neg_lt_zero.mpr hL0),
      if_pos (le_refl 0)]
    simp
  have hdeg : π * (180 / π) = 180 := by
    field_simp
  have hsqrt : Real.sqrt ((a.x - L - a.x) * (a.x - L - a.x) + (a.y - a.y) * (a.y - a.y)) = L :=
    sqrt_eval hL0.le (by ring)
  have hfs : firstSnapAngle (180 : ℝ) snapAngles = some 180 :=
    firstSnapAngle_eq _ 180 (by simp [snapAngles])
      (by rw [show ANGLE_SNAP_THRESHOLD = (10 : ℝ) from rfl]; norm_num)
  have hrad : (180 : ℝ) * (π / 180) = π := by ring
  simp only [angleCorrect, hatan, hdeg, hsqrt, hfs, if_pos hL, hrad, Real.cos_pi, Real.sin_pi]
  have hx : a.x + L * (-1) = a.x - L := by ring
  simp [hx]
  ring

/-- A point straight below the anchor is a fixed point of the
angle-correction stage (angle -90). -/
theorem angleCorrect_down (a : Pt) (L : ℝ) (hL : 0.5 ≤ L) :
    angleCorrect ⟨a.x, a.y - L⟩ a = ⟨a.x, a.y - L⟩ := by
  have hL0 : (0 : ℝ) < L := lt_of_lt_of_le (by norm_num) hL
  have hatan : atan2 (a.y - L - a.y) (a.x - a.x) = -(π / 2) := by
    rw [sub_self, show a.y - L - a.y = -L by ring]
    unfold atan2
    rw [if_neg (lt_irrefl 0), if_neg (lt_irrefl 0),
      if_neg (not_lt.mpr (neg_nonpos.mpr hL0.le)), if_pos (neg_lt_zero.mpr hL0)]
  have hdeg : -(π / 2) * (180 / π) = -90 := by
    field_simp
    ring
  have hsqrt : Real.sqrt ((a.x - a.x) * (a.x - a.x) + (a.y - L - a.y) * (a.y - L - a.y)) = L :=
    sqrt_eval hL0.le (by ring)
  have hfs : firstSnapAngle (-90 : ℝ) snapAngles = some (-90) :=
    firstSnapAngle_eq _ (-90) (by simp [snapAngles])
      (by rw [show ANGLE_SNAP_THRESHOLD = (10 : ℝ) from rfl]; norm_num)
  have hrad : (-90 : ℝ) * (π / 180) = -(π / 2) := by ring
  simp only [angleCorrect, hatan, hdeg, hsqrt, hfs, if_pos hL, hrad, Real.cos_neg,
    Real.sin_neg, Real.cos_pi_div_two, Real.sin_pi_div_two]
  have hy : a.y + L * -1 = a.y - L := by ring
  simp [hy]
  ring

/-- A matched candidate belongs to the scanned list and is within the
angle threshold. -/
theorem firstSnapAngle_sound (angle : ℝ) :
    ∀ (l : List ℝ) (c : ℝ), firstSnapAngle angle l = some c →
      c ∈ l ∧ |angle - c| < ANGLE_SNAP_THRESHOLD := by
  intro l
  induction l with
  | nil => intro c h; cases h
  | cons d rest ih =>
    intro c h
    unfold firstSnapAngle at h
    by_cases hd : |angle - d| < ANGLE_SNAP_THRESHOLD
    · rw [if_pos hd] at h
      cases h
      exact ⟨List.mem_cons_self _ _, hd⟩
    · rw [if_neg hd] at h
      obtain ⟨hm, hlt⟩ := ih c h
      exact ⟨List.mem_cons_of_mem _ hm, hlt⟩

/-- The angle-correction stage is idempotent: its output is either the
input itself or a point lying exactly on one of the four axis rays from
the anchor, which the stage maps to itself. -/
theorem angleCorrect_idem (p a : Pt) :
    angleCorrect (angleCorrect p a) a = angleCorrect p a := by
  rcases hfs : firstSnapAngle (atan2 (p.y - a.y) (p.x - a.x) * (180 / π)) snapAngles with _ | c
  · have hp : angleCorrect p a = p := by simp only [angleCorrect, hfs]
    rw [hp, hp]
  · by_cases hlen : (0.5 : ℝ) ≤
        Real.sqrt ((p.x - a.x) * (p.x - a.x) + (p.y - a.y) * (p.y - a.y))
    · set L := Real.sqrt ((p.x - a.x) * (p.x - a.x) + (p.y - a.y) * (p.y - a.y)) with hLdef
      have hw : angleCorrect p a =
          ⟨a.x + L * Real.cos (c * (π / 180)), a.y + L * Real.sin (c * (π / 180))⟩ := by
        simp only [angleCorrect, hfs, if_pos hlen]
      have hc : c ∈ snapAngles := (firstSnapAngle_sound _ _ c hfs).1
      fin_cases hc
      · have hsimp : angleCorrect p a = ⟨a.x + L, a.y⟩ := by
          rw [hw]
          norm_num
        rw [hsimp, angleCorrect_right a L hlen]
      · have hsimp : angleCorrect p a = ⟨a.x, a.y + L⟩ := by
          rw [hw, show (90 : ℝ) * (π / 180) = π / 2 by ring, Real.cos_pi_div_two,
            Real.sin_pi_div_two]
          norm_num
        rw [hsimp, angleCorrect_up a L hlen]
      · have hsimp : angleCorrect p a = ⟨a.x - L, a.y⟩ := by
          rw [hw, show (180 : ℝ) * (π / 180) = π by ring, Real.cos_pi, Real.sin_pi]
          have hx : a.x + L * (-1) = a.x - L := by ring
          simp [hx]
          ring
        rw [hsimp, angleCorrect_left a L hlen]
      · have hsimp : angleCorrect p a = ⟨a.x, a.y - L⟩ := by
          rw [hw, show (-90 : ℝ) * (π / 180) = -(π / 2) by ring, Real.cos_neg, Real.sin_neg,
            Real.cos_pi_div_two, Real.sin_pi_div_two]
          have hy : a.y + L * -1 = a.y - L := by ring
          simp [hy]
          ring
        rw [hsimp, angleCorrect_down a L hlen]
      · have hsimp : angleCorrect p a = ⟨a.x - L, a.y⟩ := by
          rw [hw, show (-180 : ℝ) * (π / 180) = -π by ring, Real.cos_neg, Real.sin_neg,
            Real.cos_pi, Real.sin_pi]
          have hx : a.x + L * (-1) = a.x - L := by ring
          simp [hx]
          ring
        rw [hsimp, angleCorrect_left a L hlen]
    · have hp : angleCorrect p a = p := by simp only [angleCorrect, hfs, if_neg hlen]
      rw [hp, hp]

/-! ## Claim C2: characterisation of `isRoomClosed` -/

/-- C2: `isRoomClosed` returns false for every wall set with fewer than
3 walls; for 3 or more walls it returns true iff every wall endpoint has
some endpoint of a different wall within the positional tolerance of
0.5 ft of it (the source checks the tolerance per coordinate). -/
theorem c2_isRoomClosed_iff (walls : List Wall) :
    isRoomClosed walls = true ↔
      3 ≤ walls.length ∧
        ∀ ep ∈ wallEndpoints walls, ∃ other ∈ wallEndpoints walls,
          other.wallId ≠ ep.wallId ∧ |other.x - ep.x| < 0.5 ∧ |other.y - ep.y| < 0.5 := by
  unfold isRoomClosed unconnectedCount
  by_cases h : walls.length < 3
  · simp only [if_pos h, Bool.false_eq_true, false_iff, not_and]
    intro h3
    omega
  · simp only [if_neg h, beq_iff_eq, List.length_eq_zero, List.filter_eq_nil_iff,
      decide_eq_true_eq, not_not, isConnectedEndpoint]
    constructor
    · intro hall
      exact ⟨by omega, hall⟩
    · intro hall
      exact hall.2

/-- Witness for C2: the empty wall set is not closed. -/
theorem c2_witness : isRoomClosed [] = false := by
  have h := c2_isRoomClosed_iff []
  simp only [List.length_nil] at h
  cases hb : isRoomClosed []
  · rfl
  · exact absurd ((h.mp hb).1) (by omega)

/-! ## Claim C3: `calculateFloorArea` returns 0 on degenerate input -/

/-- C3: `calculateFloorArea` returns 0 (and, being a total function,
never throws) whenever the wall set has fewer than 3 walls, or is not
closed per `isRoomClosed`, or the traced vertex ring collects fewer than
3 vertices. -/
theorem c3_calculateFloorArea_zero (walls : List Wall)
    (h : walls.length < 3 ∨ isRoomClosed walls = false ∨ (traceVertices walls).length < 3) :
    calculateFloorArea walls = 0 := by
  unfold calculateFloorArea
  rcases h with h | h | h
  · simp [h]
  · simp [h]
  · by_cases h1 : walls.length < 3
    · simp [h1]
    · by_cases h2 : isRoomClosed walls
      · simp [h1, h2, h]
      · simp [h1, h2]

/-- Witness for C3 at the empty wall set. -/
theorem c3_witness : ([] : List Wall).length < 3 ∧ calculateFloorArea [] = 0 :=
  ⟨by norm_num, c3_calculateFloorArea_zero [] (Or.inl (by norm_num))⟩

/-! ## Claim C10: `syncFloorCeilingArea` is a no-op when the area is 0 -/

/-- C10: when the computed area is 0, `syncFloorCeilingArea` does not
invoke `onChange` (modelled by returning `none`), so `floor.area` and
`ceiling.area` retain their previous values. -/
theorem c10_sync_noop (fp : Floorplan) (h : calculateFloorArea fp.walls = 0) :
    syncFloorCeilingArea fp = none := by
  unfold syncFloorCeilingArea
  simp [h]

/-- Witness for C10: a floorplan with no walls. -/
theorem c10_witness :
    syncFloorCeilingArea ⟨[], [], [], ⟨20, 0.5, "ground"⟩, ⟨20, 0.3, "roof"⟩, ⟨0.5, 0⟩⟩ = none :=
  c10_sync_noop _ (by unfold calculateFloorArea; norm_num)

/-! ## Claim C8: `deleteWall` cascades -/

/-- C8: `deleteWall` removes the wall with the given id and every window
and door whose `wall_id` equals it, leaving all other walls, windows and
doors unchanged (the filter equations keep exactly the non-matching
entries, in order), so no window or door referencing the deleted wall
remains. -/
theorem c8_deleteWall_cascades (fp : Floorplan) (wallId : ℕ) :
    (deleteWall fp wallId).walls = fp.walls.filter (fun w => w.id ≠ wallId) ∧
      (deleteWall fp wallId).windows = fp.windows.filter (fun w => w.wall_id ≠ wallId) ∧
      (deleteWall fp wallId).doors = fp.doors.filter (fun d => d.wall_id ≠ wallId) ∧
      (∀ w ∈ (deleteWall fp wallId).walls, w.id ≠ wallId) ∧
      (∀ w ∈ (deleteWall fp wallId).windows, w.wall_id ≠ wallId) ∧
      (∀ d ∈ (deleteWall fp wallId).doors, d.wall_id ≠ wallId) := by
  refine ⟨rfl, rfl, rfl, ?_, ?_, ?_⟩ <;>
    · intro w hw
      simp only [deleteWall, List.mem_filter, decide_eq_true_eq] at hw
      exact hw.2

/-- Witness for C8 on a two-wall floorplan with a window and a door on
wall 1: deleting wall 1 removes the wall and both openings. -/
theorem c8_witness :
    (deleteWall
        ⟨[⟨1, 0, 0, 10, 0, 9, 9 / 12, "brick"⟩, ⟨2, 10, 0, 10, 10, 9, 9 / 12, "brick"⟩],
          [⟨7, 1, 0.5, 4, 4.5, 2.8, "average", "double_glazed"⟩],
          [⟨8, 1, 0.3, 3, 7, 2.0, "average", "wood"⟩],
          ⟨20, 0.5, "ground"⟩, ⟨20, 0.3, "roof"⟩, ⟨0.5, 0⟩⟩ 1).walls =
      [⟨2, 10, 0, 10, 10, 9, 9 / 12, "brick"⟩] ∧
    (deleteWall
        ⟨[⟨1, 0, 0, 10, 0, 9, 9 / 12, "brick"⟩, ⟨2, 10, 0, 10, 10, 9, 9 / 12, "brick"⟩],
          [⟨7, 1, 0.5, 4, 4.5, 2.8, "average", "double_glazed"⟩],
          [⟨8, 1, 0.3, 3, 7, 2.0, "average", "wood"⟩],
          ⟨20, 0.5, "ground"⟩, ⟨20, 0.3, "roof"⟩, ⟨0.5, 0⟩⟩ 1).windows = [] := by
  have h := c8_deleteWall_cascades
    ⟨[⟨1, 0, 0, 10, 0, 9, 9 / 12, "brick"⟩, ⟨2, 10, 0, 10, 10, 9, 9 / 12, "brick"⟩],
      [⟨7, 1, 0.5, 4, 4.5, 2.8, "average", "double_glazed"⟩],
      [⟨8, 1, 0.3, 3, 7, 2.0, "average", "wood"⟩],
      ⟨20, 0.5, "ground"⟩, ⟨20, 0.3, "roof"⟩, ⟨0.5, 0⟩⟩ 1
  refine ⟨?_, ?_⟩
  · rw [h.1]
    simp
  · rw [h.2.1]
    simp

/-! ## Claim C9: `updateWallLength` -/

/-- C9: `updateWallLength(id, newLength)` holds the wall's start point
`(x1, y1)` fixed and scales the direction vector by
`newLength / currentLength`; it is a no-op when no wall has the id or
when the wall's current length is 0. -/
theorem c9_updateWallLength (fp : Floorplan) (wallId : ℕ) (newLength : ℝ) :
    ((fp.walls.find? fun w => w.id = wallId) = none →
        updateWallLength fp wallId newLength = fp) ∧
      ∀ wall, (fp.walls.find? fun w => w.id = wallId) = some wall →
        (getWallLength wall = 0 → updateWallLength fp wallId newLength = fp) ∧
          (getWallLength wall ≠ 0 →
            (updateWallLength fp wallId newLength).walls =
              fp.walls.map fun w =>
                if w.id = wallId then
                  { w with
                    x2 := wall.x1 + (wall.x2 - wall.x1) * (newLength / getWallLength wall),
                    y2 := wall.y1 + (wall.y2 - wall.y1) * (newLength / getWallLength wall) }
                else w) := by
  constructor
  · intro hnone
    unfold updateWallLength
    rw [hnone]
  · intro wall hsome
    constructor
    · intro hzero
      unfold updateWallLength
      rw [hsome]
      simp [hzero]
    · intro hnz
      unfold updateWallLength
      rw [hsome]
      simp only [if_neg hnz]
      rfl

/-- Witness for C9, the spec scenario: a single wall from (0,0) to
(10,0) ft rescaled to length 20 gets the new end point (20,0) with the
start point unchanged. -/
theorem c9_witness :
    (updateWallLength
        ⟨[⟨1, 0, 0, 10, 0, 9, 9 / 12, "brick"⟩], [], [],
          ⟨20, 0.5, "ground"⟩, ⟨20, 0.3, "roof"⟩, ⟨0.5, 0⟩⟩ 1 20).walls =
      [⟨1, 0, 0, 20, 0, 9, 9 / 12, "brick"⟩] := by
  have hfind :
      (([⟨1, 0, 0, 10, 0, 9, 9 / 12, "brick"⟩] : List Wall).find? fun w => w.id = 1) =
        some ⟨1, 0, 0, 10, 0, 9, 9 / 12, "brick"⟩ := by
    simp [List.find?]
  have hlen : getWallLength ⟨1, 0, 0, 10, 0, 9, 9 / 12, "brick"⟩ = 10 := by
    unfold getWallLength
    norm_num
    rw [show (100 : ℝ) = 10 ^ 2 by norm_num, Real.sqrt_sq (by norm_num)]
  have h := (c9_updateWallLength
      ⟨[⟨1, 0, 0, 10, 0, 9, 9 / 12, "brick"⟩], [], [],
        ⟨20, 0.5, "ground"⟩, ⟨20, 0.3, "roof"⟩, ⟨0.5, 0⟩⟩ 1 20).2
      ⟨1, 0, 0, 10, 0, 9, 9 / 12, "brick"⟩ hfind
  rw [(h.2 (by rw [hlen]; norm_num))]
  rw [hlen]
  norm_num

/-! ## Claim C7: what `syncFloorCeilingArea` writes -/

/-- C7 counterexample: on the unit right triangle (area 0.5 square feet)
the emitted snapshot's `floor.area` is `0.05` square meters, while the
plain conversion `area * 0.3048 * 0.3048` is `0.04645152`: the code
writes the conversion rounded to two decimals, not the conversion
itself. -/
theorem c7_counterexample :
    (syncFloorCeilingArea triFp).map (fun fp => fp.floor.area) = some 0.05 ∧
      calculateFloorArea triFp.walls * FEET_TO_METERS * FEET_TO_METERS ≠ 0.05 := by
  have harea : calculateFloorArea triFp.walls = 1 / 2 := triWalls_area
  constructor
  · unfold syncFloorCeilingArea
    rw [harea]
    rw [if_pos (by norm_num : (0 : ℝ) < 1 / 2)]
    norm_num [toFixed2, round_eq, FEET_TO_METERS]
  · rw [harea]
    norm_num [FEET_TO_METERS]

/-- C7 (amended): whenever `syncFloorCeilingArea` emits a snapshot, that
snapshot's `floor.area` and `ceiling.area` both equal the computed area
converted from square feet to square meters by multiplying with
`0.3048 ^ 2` and then rounded to two decimal places (`toFixed(2)`), and
every other field of the floorplan is unchanged. -/
theorem c7_sync_writes_rounded (fp fp' : Floorplan)
    (h : syncFloorCeilingArea fp = some fp') :
    fp'.floor.area = toFixed2 (calculateFloorArea fp.walls * FEET_TO_METERS * FEET_TO_METERS) ∧
      fp'.ceiling.area =
        toFixed2 (calculateFloorArea fp.walls * FEET_TO_METERS * FEET_TO_METERS) ∧
      fp'.floor.u_value = fp.floor.u_value ∧ fp'.floor.type = fp.floor.type ∧
      fp'.ceiling.u_value = fp.ceiling.u_value ∧ fp'.ceiling.type = fp.ceiling.type ∧
      fp'.walls = fp.walls ∧ fp'.windows = fp.windows ∧ fp'.doors = fp.doors ∧
      fp'.ventilation = fp.ventilation := by
  unfold syncFloorCeilingArea at h
  by_cases h0 : 0 < calculateFloorArea fp.walls
  · rw [if_pos h0] at h
    cases h
    exact ⟨rfl, rfl, rfl, rfl, rfl, rfl, rfl, rfl, rfl, rfl⟩
  · rw [if_neg h0] at h
    cases h

/-- Witness for the amended C7 on the square floorplan: the emitted
snapshot is computed and matches the rounded conversion. -/
theorem c7_witness :
    syncFloorCeilingArea sqFp =
        some ⟨squareWalls 0 0, [], [], ⟨929 / 100, 0.5, "ground"⟩,
          ⟨929 / 100, 0.3, "roof"⟩, ⟨0.5, 0⟩⟩ ∧
      (929 / 100 : ℝ) =
        toFixed2 (calculateFloorArea sqFp.walls * FEET_TO_METERS * FEET_TO_METERS) := by
  have harea : calculateFloorArea sqFp.walls = 100 := squareWalls_area 0 0
  have h : syncFloorCeilingArea sqFp =
      some ⟨squareWalls 0 0, [], [], ⟨929 / 100, 0.5, "ground"⟩,
        ⟨929 / 100, 0.3, "roof"⟩, ⟨0.5, 0⟩⟩ := by
    unfold syncFloorCeilingArea
    rw [harea, if_pos (by norm_num : (0 : ℝ) < 100)]
    norm_num [toFixed2, round_eq, FEET_TO_METERS, sqFp]
  refine ⟨h, ?_⟩
  have h1 := (c7_sync_writes_rounded sqFp _ h).1
  simp only at h1
  exact h1

/-! ## Claim C1: the 10 by 10 ft square -/

/-- C1: for a floorplan whose walls are 4 walls forming a 10 by 10 ft
axis-aligned square with matching endpoints (any position), the computed
area is 100.0 square feet (within 1e-6, here exactly), and
`syncFloorCeilingArea` emits a snapshot whose `floor.area` and
`ceiling.area` are 9.29 square meters within 0.01 (here exactly 9.29). -/
theorem c1_square_area_and_sync (ox oy : ℝ) (fp : Floorplan)
    (hw : fp.walls = squareWalls ox oy) :
    |calculateFloorArea fp.walls - 100| ≤ 1e-6 ∧
      ∃ fp', syncFloorCeilingArea fp = some fp' ∧
        |fp'.floor.area - 9.29| ≤ 0.01 ∧ |fp'.ceiling.area - 9.29| ≤ 0.01 := by
  have harea : calculateFloorArea fp.walls = 100 := by rw [hw, squareWalls_area]
  constructor
  · rw [harea]
    norm_num
  · refine ⟨{ fp with
        floor := { fp.floor with area := 929 / 100 },
        ceiling := { fp.ceiling with area := 929 / 100 } }, ?_, by norm_num, by norm_num⟩
    unfold syncFloorCeilingArea
    rw [harea, if_pos (by norm_num : (0 : ℝ) < 100)]
    norm_num [toFixed2, round_eq, FEET_TO_METERS]

/-- Witness for C1 at the origin square. -/
theorem c1_witness :
    |calculateFloorArea sqFp.walls - 100| ≤ 1e-6 ∧
      ∃ fp', syncFloorCeilingArea sqFp = some fp' ∧
        |fp'.floor.area - 9.29| ≤ 0.01 ∧ |fp'.ceiling.area - 9.29| ≤ 0.01 :=
  c1_square_area_and_sync 0 0 sqFp rfl

/-! ## Claim C4: endpoint snap has final priority -/

/-- C4: in the drag pipeline the endpoint snap runs after angle
correction and has final priority: if some endpoint of a wall other than
the dragged one lies strictly within `SNAP_DISTANCE / SCALE` (15 px at
15 px per foot, i.e. 1 ft) of the angle-corrected point, the pipeline
returns exactly the coordinates of such an endpoint. -/
theorem c4_endpoint_snap_final (walls : List Wall) (dragWallId : ℕ) (a p : Pt)
    (h : ∃ q ∈ getSnapPoints walls dragWallId,
      Real.sqrt (((angleCorrect p a).x - q.x) ^ 2 + ((angleCorrect p a).y - q.y) ^ 2) <
        SNAP_DISTANCE / SCALE) :
    SNAP_DISTANCE / SCALE = 1 ∧
      ∃ q ∈ getSnapPoints walls dragWallId,
        Real.sqrt (((angleCorrect p a).x - q.x) ^ 2 + ((angleCorrect p a).y - q.y) ^ 2) < 1 ∧
          dragSnapPoint walls dragWallId a p = ⟨q.x, q.y⟩ := by
  have hscale : SNAP_DISTANCE / SCALE = 1 := by norm_num [SNAP_DISTANCE, SCALE]
  refine ⟨hscale, ?_⟩
  obtain ⟨r, hr⟩ := findSnapLoop_exists ((angleCorrect p a).x) ((angleCorrect p a).y)
    (getSnapPoints walls dragWallId) (SNAP_DISTANCE / SCALE) h
  have hsound := findSnapLoop_sound ((angleCorrect p a).x) ((angleCorrect p a).y)
    (getSnapPoints walls dragWallId) none (SNAP_DISTANCE / SCALE) r hr
  rcases hsound with ⟨hmem, hdist⟩ | habs
  · refine ⟨r, hmem, by rwa [hscale] at hdist, ?_⟩
    simp only [dragSnapPoint, findSnapPoint]
    rw [hr]
  · cases habs

/-- Witness for C4: dragging the end of wall 1 to (5, 0) from anchor
(0, 0) angle-snaps to (5, 0) itself and then endpoint-snaps onto wall
2's endpoint (5.5, 0). -/
theorem c4_witness :
    SNAP_DISTANCE / SCALE = 1 ∧
      ∃ q ∈ getSnapPoints
          [⟨1, 0, 0, 1, 1, 9, 9 / 12, "brick"⟩, ⟨2, 5.5, 0, 20, 20, 9, 9 / 12, "brick"⟩] 1,
        Real.sqrt
            (((angleCorrect ⟨5, 0⟩ ⟨0, 0⟩).x - q.x) ^ 2 +
              ((angleCorrect ⟨5, 0⟩ ⟨0, 0⟩).y - q.y) ^ 2) < 1 ∧
          dragSnapPoint
              [⟨1, 0, 0, 1, 1, 9, 9 / 12, "brick"⟩, ⟨2, 5.5, 0, 20, 20, 9, 9 / 12, "brick"⟩] 1
              ⟨0, 0⟩ ⟨5, 0⟩ = ⟨q.x, q.y⟩ := by
  have hac : angleCorrect ⟨5, 0⟩ ⟨0, 0⟩ = ⟨5, 0⟩ := by
    have h0 : atan2 ((0 : ℝ) - 0) ((5 : ℝ) - 0) = 0 := by
      norm_num [atan2]
    have hfs : firstSnapAngle (0 * (180 / π)) snapAngles = some 0 := by
      unfold firstSnapAngle snapAngles ANGLE_SNAP_THRESHOLD
      norm_num
    have hlen : Real.sqrt (((5 : ℝ) - 0) * (5 - 0) + (0 - 0) * (0 - 0)) = 5 :=
      sqrt_eval (by norm_num) (by norm_num)
    simp only [angleCorrect, h0, hfs, hlen]
    rw [if_pos (by norm_num : (0.5 : ℝ) ≤ 5)]
    norm_num
  refine c4_endpoint_snap_final _ 1 ⟨0, 0⟩ ⟨5, 0⟩ ⟨⟨5.5, 0, 2⟩, ?_, ?_⟩
  · norm_num [getSnapPoints, List.filter, List.flatMap]
  · rw [hac]
    have : Real.sqrt (((5 : ℝ) - 5.5) ^ 2 + (0 - 0) ^ 2) = 0.5 :=
      sqrt_eval (by norm_num) (by norm_num)
    rw [this]
    norm_num [SNAP_DISTANCE, SCALE]

/-! ## Claim C5: right-angle snap -/

/-- C5: below the 0.5 ft length floor `snapToRightAngle` returns the
point unchanged; at length at least 0.5 ft, when the drag angle (in
degrees) is within 10 degrees of a candidate in
`[0, 90, 180, -90, -180]`, it returns
`anchor + length * (cos, sin)(candidate)`, whose Euclidean distance from
the anchor is exactly the dragged length. -/
theorem c5_snapToRightAngle_spec (x y anchorX anchorY : ℝ) :
    (Real.sqrt ((x - anchorX) * (x - anchorX) + (y - anchorY) * (y - anchorY)) < 0.5 →
        snapToRightAngle x y anchorX anchorY = ⟨x, y⟩) ∧
      ∀ c ∈ snapAngles,
        |atan2 (y - anchorY) (x - anchorX) * (180 / π) - c| < ANGLE_SNAP_THRESHOLD →
          0.5 ≤ Real.sqrt ((x - anchorX) * (x - anchorX) + (y - anchorY) * (y - anchorY)) →
            snapToRightAngle x y anchorX anchorY =
                ⟨anchorX +
                    Real.sqrt ((x - anchorX) * (x - anchorX) + (y - anchorY) * (y - anchorY)) *
                      Real.cos (c * (π / 180)),
                  anchorY +
                    Real.sqrt ((x - anchorX) * (x - anchorX) + (y - anchorY) * (y - anchorY)) *
                      Real.sin (c * (π / 180))⟩ ∧
              Real.sqrt
                  (((snapToRightAngle x y anchorX anchorY).x - anchorX) ^ 2 +
                    ((snapToRightAngle x y anchorX anchorY).y - anchorY) ^ 2) =
                Real.sqrt ((x - anchorX) * (x - anchorX) + (y - anchorY) * (y - anchorY)) := by
  constructor
  · intro hshort
    simp only [snapToRightAngle]
    rw [if_pos hshort]
  · intro c hc hang hlen
    have heq : snapToRightAngle x y anchorX anchorY =
        ⟨anchorX +
            Real.sqrt ((x - anchorX) * (x - anchorX) + (y - anchorY) * (y - anchorY)) *
              Real.cos (c * (π / 180)),
          anchorY +
            Real.sqrt ((x - anchorX) * (x - anchorX) + (y - anchorY) * (y - anchorY)) *
              Real.sin (c * (π / 180))⟩ := by
      simp only [snapToRightAngle]
      rw [if_neg (not_lt.mpr hlen), firstSnapAngle_eq _ c hc hang]
      rfl
    refine ⟨heq, ?_⟩
    rw [heq]
    have hL0 : 0 ≤ Real.sqrt ((x - anchorX) * (x - anchorX) + (y - anchorY) * (y - anchorY)) :=
      Real.sqrt_nonneg _
    set L := Real.sqrt ((x - anchorX) * (x - anchorX) + (y - anchorY) * (y - anchorY)) with hLdef
    have hsum : (anchorX + L * Real.cos (c * (π / 180)) - anchorX) ^ 2 +
        (anchorY + L * Real.sin (c * (π / 180)) - anchorY) ^ 2 =
        L ^ 2 * (Real.sin (c * (π / 180)) ^ 2 + Real.cos (c * (π / 180)) ^ 2) := by
      ring
    rw [hsum, Real.sin_sq_add_cos_sq, mul_one, Real.sqrt_sq hL0]

/-- Witness for C5: dragging to (3, 0) from anchor (0, 0) is at angle 0
and is returned as (3, 0) itself, at distance 3. -/
theorem c5_witness : snapToRightAngle 3 0 0 0 = ⟨3, 0⟩ := by
  have hang : |atan2 ((0 : ℝ) - 0) ((3 : ℝ) - 0) * (180 / π) - 0| < ANGLE_SNAP_THRESHOLD := by
    have h0 : atan2 ((0 : ℝ) - 0) ((3 : ℝ) - 0) = 0 := by norm_num [atan2]
    rw [h0, show ANGLE_SNAP_THRESHOLD = (10 : ℝ) from rfl]
    norm_num
  have hlen : (0.5 : ℝ) ≤
      Real.sqrt (((3 : ℝ) - 0) * (3 - 0) + ((0 : ℝ) - 0) * (0 - 0)) := by
    rw [sqrt_eval (by norm_num : (0 : ℝ) ≤ 3) (by norm_num)]
    norm_num
  have h := ((c5_snapToRightAngle_spec 3 0 0 0).2 0 (by simp [snapAngles]) hang hlen).1
  rw [h, sqrt_eval (by norm_num : (0 : ℝ) ≤ 3) (by norm_num)]
  norm_num

/-! ## Claim C6: snap idempotence -/

/-- C6 (amended): the composite drag snap is idempotent whenever the
endpoint-snap stage does not fire, i.e. when no other-wall endpoint lies
strictly within `SNAP_DISTANCE / SCALE` of the angle-corrected point.
(Unrestricted idempotence is refuted by `c6_counterexample`.) -/
theorem c6_snap_idem_no_endpoint (walls : List Wall) (dragWallId : ℕ) (a p : Pt)
    (h : ∀ q ∈ getSnapPoints walls dragWallId,
      ¬ Real.sqrt (((angleCorrect p a).x - q.x) ^ 2 + ((angleCorrect p a).y - q.y) ^ 2) <
        SNAP_DISTANCE / SCALE) :
    dragSnapPoint walls dragWallId a (dragSnapPoint walls dragWallId a p) =
      dragSnapPoint walls dragWallId a p := by
  have hnone : findSnapLoop ((angleCorrect p a).x) ((angleCorrect p a).y)
      (getSnapPoints walls dragWallId) none (SNAP_DISTANCE / SCALE) = none :=
    findSnapLoop_none _ _ _ _ h
  have h1 : dragSnapPoint walls dragWallId a p = angleCorrect p a := by
    simp only [dragSnapPoint, findSnapPoint]
    rw [hnone]
  rw [h1]
  simp only [dragSnapPoint, findSnapPoint]
  rw [angleCorrect_idem p a, hnone]

/-- Witness for the amended C6: with no other walls the snap point list
is empty and the snap pipeline is idempotent. -/
theorem c6_witness :
    dragSnapPoint [⟨1, 0, 0, 0.2, 0.1, 9, 9 / 12, "brick"⟩] 1 ⟨0, 0⟩
        (dragSnapPoint [⟨1, 0, 0, 0.2, 0.1, 9, 9 / 12, "brick"⟩] 1 ⟨0, 0⟩ ⟨0.2, 0.1⟩) =
      dragSnapPoint [⟨1, 0, 0, 0.2, 0.1, 9, 9 / 12, "brick"⟩] 1 ⟨0, 0⟩ ⟨0.2, 0.1⟩ := by
  refine c6_snap_idem_no_endpoint _ 1 ⟨0, 0⟩ ⟨0.2, 0.1⟩ ?_
  intro q hq
  simp [getSnapPoints, List.filter] at hq

/-- C6 counterexample: the composite snap is not idempotent.  Dragging
wall 1's endpoint to (0.2, 0.1) endpoint-snaps to (1, 0.15); applying
the snap again angle-corrects (1, 0.15) onto the axis and endpoint-snaps
to the different endpoint (1.01, 0). -/
theorem c6_counterexample :
    dragSnapPoint cxWalls 1 ⟨0, 0⟩ (dragSnapPoint cxWalls 1 ⟨0, 0⟩ ⟨0.2, 0.1⟩) ≠
      dragSnapPoint cxWalls 1 ⟨0, 0⟩ ⟨0.2, 0.1⟩ := by
  have hth : SNAP_DISTANCE / SCALE = 1 := by norm_num [SNAP_DISTANCE, SCALE]
  have hpts : getSnapPoints cxWalls 1 =
      [⟨1, 0.15, 2⟩, ⟨50, 50, 2⟩, ⟨1.01, 0, 3⟩, ⟨60, -60, 3⟩] := by
    norm_num [getSnapPoints, cxWalls, List.filter]
  -- the dragged point (0.2, 0.1) is too short for angle correction
  have hac1 : angleCorrect ⟨0.2, 0.1⟩ ⟨0, 0⟩ = ⟨0.2, 0.1⟩ := by
    have hlt : Real.sqrt (((0.2 : ℝ) - 0) * (0.2 - 0) + ((0.1 : ℝ) - 0) * (0.1 - 0)) < 0.5 :=
      (Real.sqrt_lt' (by norm_num)).mpr (by norm_num)
    cases hcase : firstSnapAngle (atan2 ((0.1 : ℝ) - 0) ((0.2 : ℝ) - 0) * (180 / π)) snapAngles
    · simp only [angleCorrect, hcase]
    · simp only [angleCorrect, hcase]
      rw [if_neg (not_le.mpr hlt)]
  -- the first application endpoint-snaps onto (1, 0.15)
  have hc1 : (Real.sqrt (((0.2 : ℝ) - 1) ^ 2 + ((0.1 : ℝ) - 0.15) ^ 2) < 1) = True :=
    eq_true ((Real.sqrt_lt' (by norm_num)).mpr (by norm_num))
  have hc2 : (Real.sqrt (((0.2 : ℝ) - 50) ^ 2 + ((0.1 : ℝ) - 50) ^ 2) <
      Real.sqrt (((0.2 : ℝ) - 1) ^ 2 + ((0.1 : ℝ) - 0.15) ^ 2)) = False :=
    eq_false (not_lt.mpr (Real.sqrt_le_sqrt (by norm_num)))
  have hc3 : (Real.sqrt (((0.2 : ℝ) - 1.01) ^ 2 + ((0.1 : ℝ) - 0) ^ 2) <
      Real.sqrt (((0.2 : ℝ) - 1) ^ 2 + ((0.1 : ℝ) - 0.15) ^ 2)) = False :=
    eq_false (not_lt.mpr (Real.sqrt_le_sqrt (by norm_num)))
  have hc4 : (Real.sqrt (((0.2 : ℝ) - 60) ^ 2 + ((0.1 : ℝ) - -60) ^ 2) <
      Real.sqrt (((0.2 : ℝ) - 1) ^ 2 + ((0.1 : ℝ) - 0.15) ^ 2)) = False :=
    eq_false (not_lt.mpr (Real.sqrt_le_sqrt (by norm_num)))
  have hfind1 : findSnapPoint cxWalls 0.2 0.1 1 = some ⟨1, 0.15, 2⟩ := by
    unfold findSnapPoint
    rw [hpts, hth]
    simp only [findSnapLoop, hc1, hc2, hc3, hc4, if_true, if_false]
  have h1 : dragSnapPoint cxWalls 1 ⟨0, 0⟩ ⟨0.2, 0.1⟩ = ⟨1, 0.15⟩ := by
    simp only [dragSnapPoint, hac1, hfind1]
  -- the second application angle-corrects (1, 0.15) onto the x axis
  have hs1 : (1.011 : ℝ) < Real.sqrt 1.0225 := by
    rw [show (1.0225 : ℝ) = 1.0225 from rfl]
    exact (Real.lt_sqrt (by norm_num)).mpr (by norm_num)
  have hs2 : Real.sqrt 1.0225 < 1.0112 := (Real.sqrt_lt' (by norm_num)).mpr (by norm_num)
  have hatan : atan2 ((0.15 : ℝ) - 0) ((1 : ℝ) - 0) = Real.arctan 0.15 := by
    unfold atan2
    rw [if_pos (by norm_num : (0 : ℝ) < 1 - 0)]
    norm_num
  have ht1 : 0 < Real.arctan 0.15 := by
    have := Real.arctan_strictMono (by norm_num : (0 : ℝ) < 0.15)
    rwa [Real.arctan_zero] at this
  have ht2 : Real.arctan 0.15 < 0.15 := by
    have h := Real.lt_tan ht1 (Real.arctan_lt_pi_div_two 0.15)
    rwa [Real.tan_arctan] at h
  have hang : |Real.arctan 0.15 * (180 / π) - 0| < ANGLE_SNAP_THRESHOLD := by
    rw [show ANGLE_SNAP_THRESHOLD = (10 : ℝ) from rfl, sub_zero]
    have hpos : (0 : ℝ) < 180 / π := by positivity
    have h60 : (180 : ℝ) / π < 60 := by
      rw [div_lt_iff₀ Real.pi_pos]
      nlinarith [Real.pi_gt_three]
    rw [abs_of_pos (mul_pos ht1 hpos)]
    nlinarith
  have hfs2 : firstSnapAngle (Real.arctan 0.15 * (180 / π)) snapAngles = some 0 :=
    firstSnapAngle_eq _ 0 (by simp [snapAngles]) (by rwa [sub_zero] at hang ⊢)
  have hlen2 : (0.5 : ℝ) ≤
      Real.sqrt (((1 : ℝ) - 0) * (1 - 0) + ((0.15 : ℝ) - 0) * (0.15 - 0)) := by
    have h := Real.sqrt_le_sqrt
      (by norm_num : (0.25 : ℝ) ≤ ((1 : ℝ) - 0) * (1 - 0) + ((0.15 : ℝ) - 0) * (0.15 - 0))
    rwa [sqrt_eval (by norm_num : (0 : ℝ) ≤ 0.5) (by norm_num)] at h
  have hac2 : angleCorrect ⟨1, 0.15⟩ ⟨0, 0⟩ = ⟨Real.sqrt 1.0225, 0⟩ := by
    simp only [angleCorrect, hatan, hfs2, if_pos hlen2]
    norm_num
  -- and then endpoint-snaps onto the different endpoint (1.01, 0)
  have hd1 : (Real.sqrt ((Real.sqrt 1.0225 - 1) ^ 2 + ((0 : ℝ) - 0.15) ^ 2) < 1) = True :=
    eq_true ((Real.sqrt_lt' (by norm_num)).mpr (by nlinarith))
  have hd2 : (Real.sqrt ((Real.sqrt 1.0225 - 50) ^ 2 + ((0 : ℝ) - 50) ^ 2) <
      Real.sqrt ((Real.sqrt 1.0225 - 1) ^ 2 + ((0 : ℝ) - 0.15) ^ 2)) = False :=
    eq_false (not_lt.mpr (Real.sqrt_le_sqrt (by nlinarith)))
  have hd3 : (Real.sqrt ((Real.sqrt 1.0225 - 1.01) ^ 2 + ((0 : ℝ) - 0) ^ 2) <
      Real.sqrt ((Real.sqrt 1.0225 - 1) ^ 2 + ((0 : ℝ) - 0.15) ^ 2)) = True := by
    refine eq_true (Real.sqrt_lt_sqrt (by positivity) ?_)
    nlinarith
  have hd4 : (Real.sqrt ((Real.sqrt 1.0225 - 60) ^ 2 + ((0 : ℝ) - -60) ^ 2) <
      Real.sqrt ((Real.sqrt 1.0225 - 1.01) ^ 2 + ((0 : ℝ) - 0) ^ 2)) = False :=
    eq_false (not_lt.mpr (Real.sqrt_le_sqrt (by nlinarith)))
  have hfind2 : findSnapPoint cxWalls (Real.sqrt 1.0225) 0 1 = some ⟨1.01, 0, 3⟩ := by
    unfold findSnapPoint
    rw [hpts, hth]
    simp only [findSnapLoop, hd1, hd2, hd3, hd4, if_true, if_false]
  have h2 : dragSnapPoint cxWalls 1 ⟨0, 0⟩ ⟨1, 0.15⟩ = ⟨1.01, 0⟩ := by
    simp only [dragSnapPoint, hac2, hfind2]
  rw [h1, h2]
  intro hcontra
  have hy := congrArg Pt.y hcontra
  norm_num at hy

end
